import Mathlib

/-!
Verification of the job-orchestration core of a LinkedIn-automation backend
(NestJS + BullMQ + Supabase). Shallow embedding: each definition mirrors one
service method of the TypeScript source; numbers are `Int` (JS numbers used as
integers), stores and queues are explicit lists threaded through the
operations, and the wall clock is an explicit `Nat` parameter.
-/

/-! ## Quota manager (`LinkedInSettingsService`, src/unnamed/part_006)

`linkedin_settings` row: the four per-day caps. `daily_usage` row: the four
counters for (user, date). Both are read for the current user/date before the
computation, so the embedding takes them as arguments.
-/

structure LinkedInSettings where
  max_connections_per_day : Int
  max_message_per_day : Int
  total_visits_per_day : Int
  max_inmails_per_day : Int
deriving DecidableEq, Repr

structure DailyUsage where
  connections : Int
  messages : Int
  visits : Int
  inmails : Int
deriving DecidableEq, Repr

structure QuotaInfo where
  remainingConnections : Int
  remainingMessages : Int
  remainingVisits : Int
  remainingInmails : Int
deriving DecidableEq, Repr

inductive ActionType
  | connections
  | messages
  | visits
  | inmails
deriving DecidableEq, Repr

/-- `getRemainingQuotas`: `Math.max(0, limit - usage)` per resource. -/
def getRemainingQuotas (settings : LinkedInSettings) (usage : DailyUsage) : QuotaInfo :=
  { remainingConnections := max 0 (settings.max_connections_per_day - usage.connections)
    remainingMessages := max 0 (settings.max_message_per_day - usage.messages)
    remainingVisits := max 0 (settings.total_visits_per_day - usage.visits)
    remainingInmails := max 0 (settings.max_inmails_per_day - usage.inmails) }

/-- The `switch (actionType)` used by both `hasRemainingQuota` and
`getMaxActionsForRun` to pick the matching field of the quota record. -/
def quotaField (quotas : QuotaInfo) : ActionType → Int
  | .connections => quotas.remainingConnections
  | .messages => quotas.remainingMessages
  | .visits => quotas.remainingVisits
  | .inmails => quotas.remainingInmails

/-- Remaining allowance of one resource, as the service computes it. -/
def remainingFor (settings : LinkedInSettings) (usage : DailyUsage) (t : ActionType) : Int :=
  quotaField (getRemainingQuotas settings usage) t

/-- `hasRemainingQuota`: `quotas.remainingX >= requestedCount` for the matching
resource (the `default: return false` arm of the switch is unreachable: the
action type is a four-value union). -/
def hasRemainingQuota (settings : LinkedInSettings) (usage : DailyUsage)
    (actionType : ActionType) (requestedCount : Int) : Bool :=
  decide (requestedCount ≤ quotaField (getRemainingQuotas settings usage) actionType)

/-- `getMaxActionsForRun`: `Math.min(requestedCount, availableQuota)`. -/
def getMaxActionsForRun (settings : LinkedInSettings) (usage : DailyUsage)
    (actionType : ActionType) (requestedCount : Int) : Int :=
  min requestedCount (quotaField (getRemainingQuotas settings usage) actionType)

/-! ## Pending jobs (`pending_jobs` table, src/unnamed/part_006)

The store is a list kept in `created_at` ascending order (insertion order:
`createPendingJob` appends and stamps `created_at` with the current time, and
`getProcessablePendingJobs` orders by `created_at` ascending).
-/

inductive JobType
  | followRequest
  | followResponse
  | sendMessages
  | processPendingJobs
  | processSingleCampaign
deriving DecidableEq, Repr

structure PendingJob where
  id : Nat
  user_id : String
  campaign_id : String
  job_type : JobType
  action_type : ActionType
  requested_count : Int
  created_at : Nat
  retry_count : Nat
  max_retries : Nat
deriving DecidableEq, Repr

/-- `createPendingJob`: inserts a row with the requested count as passed,
`retry_count: 0`, `max_retries: 3`. `freshId` stands for the row id the
database assigns. -/
def createPendingJob (store : List PendingJob) (freshId now : Nat)
    (userId campaignId : String) (jobType : JobType) (actionType : ActionType)
    (requestedCount : Int) : List PendingJob :=
  store ++ [{ id := freshId, user_id := userId, campaign_id := campaignId,
              job_type := jobType, action_type := actionType,
              requested_count := requestedCount, created_at := now,
              retry_count := 0, max_retries := 3 }]

/-- `getProcessablePendingJobs`: `.lte('retry_count', 3)` ordered by
`created_at` ascending (the store list is already in that order). -/
def getProcessablePendingJobs (store : List PendingJob) : List PendingJob :=
  store.filter (fun p => decide (p.retry_count ≤ 3))

/-- `completePendingJob`: deletes the row with the given id. -/
def completePendingJob (store : List PendingJob) (jobId : Nat) : List PendingJob :=
  store.filter (fun p => decide (p.id ≠ jobId))

/-! ## Job queue (`QueueService`, src/unnamed/part_002)

One BullMQ queue named `linkedin-automation`; `addJob` adds a job whose name is
the job type and whose data carries user, campaign and a payload.
-/

structure JobPayload where
  pendingJobId : Option Nat := none
  actionType : Option ActionType := none
  requestedCount : Option Int := none
  importLimit : Option Int := none
  maxDurationMs : Option Int := none
deriving DecidableEq, Repr

structure QueuedJob where
  jobType : JobType
  userId : String
  campaignId : String
  payload : JobPayload
deriving DecidableEq, Repr

namespace QueueService

/-- `QueueService.addJob`: appends a new job to the queue (BullMQ `queue.add`);
it never deduplicates. -/
def addJob (queue : List QueuedJob) (jobType : JobType) (userId campaignId : String)
    (payload : JobPayload) : List QueuedJob :=
  queue ++ [{ jobType := jobType, userId := userId, campaignId := campaignId,
              payload := payload }]

end QueueService

/-! ## Scheduler (`SchedulerService.processPendingJobs`,
src/src/scheduler/scheduler.service.ts)

The hourly pass fetches the processable pending jobs and, for each, enqueues a
`processPendingJobs` queue job carrying the pending job id, its action type and
its requested count. It performs no other write: in particular it neither
deletes the pending row (`completePendingJob` has no caller in the repository)
nor increments its retry count.
-/

structure SchedulerState where
  pendingJobs : List PendingJob
  queue : List QueuedJob
deriving DecidableEq, Repr

/-- The queue entry the hourly pass builds for one pending job. -/
def pendingJobQueueEntry (pj : PendingJob) : QueuedJob :=
  { jobType := .processPendingJobs, userId := pj.user_id, campaignId := "system",
    payload := { pendingJobId := some pj.id, actionType := some pj.action_type,
                 requestedCount := some pj.requested_count } }

namespace SchedulerService

/-- `SchedulerService.processPendingJobs`: the hourly reconciliation pass. -/
def processPendingJobs (st : SchedulerState) : SchedulerState :=
  let jobs := getProcessablePendingJobs st.pendingJobs
  { st with
    queue := jobs.foldl
      (fun q pj => QueueService.addJob q .processPendingJobs pj.user_id "system"
        { pendingJobId := some pj.id, actionType := some pj.action_type,
          requestedCount := some pj.requested_count })
      st.queue }

end SchedulerService

/-! ## Worker pool (`WorkerService.createWorkers`, src/unnamed/part_003)

`createWorkers` registers exactly two BullMQ `Worker`s — a follow-request
worker and a follow-response worker — and both are attached to the single
queue named `linkedin-automation`. BullMQ workers on one queue compete for
every job in it regardless of the job's name, so either worker may dequeue a
job of any kind. Each worker's callback guards with
`if (job.data.jobType === ...)` and returns without doing anything when the
kind does not match; a callback that returns normally makes BullMQ mark the
job completed. Workers for `sendMessages` and `processPendingJobs` are
commented out (`TODO: Add other workers when processors are ready`).
-/

inductive WorkerKind
  | followRequestWorker
  | followResponseWorker
deriving DecidableEq, Repr

/-- The job type each registered worker's callback guard tests for. -/
def workerGuard : WorkerKind → JobType
  | .followRequestWorker => .followRequest
  | .followResponseWorker => .followResponse

inductive JobState
  | waiting
  | active
  | completed
  | failed
deriving DecidableEq, Repr

structure WorkerRunOutcome where
  finalState : JobState
  processorInvoked : Option JobType
deriving DecidableEq, Repr

/-- One worker executing one dequeued job: the callback invokes the matching
processor only when the job's type equals the worker's guard; a throw inside
the processor sends the job toward retry or `failed` (abstracted as `failed`),
a normal return — including the silent non-matching branch — completes it. -/
def runJobOnWorker (w : WorkerKind) (j : QueuedJob) (processorThrows : Bool) :
    WorkerRunOutcome :=
  if j.jobType = workerGuard w then
    if processorThrows then { finalState := .failed, processorInvoked := some j.jobType }
    else { finalState := .completed, processorInvoked := some j.jobType }
  else { finalState := .completed, processorInvoked := none }

/-! ## Follow-request processor (`FollowRequestProcessor.process`,
src/src/jobs/processors/follow-request.processor.ts)

The quota-relevant control flow of `process`: trial check, campaign-active
check, `getMaxActionsForRun(userId, 'connections', importLimit)`; when the
allowance is `<= 0` it creates a pending job carrying the ORIGINAL
`importLimit` plus an info activity record and returns normally; otherwise it
runs the automation through `runWithLogin` capped at the allowance. None of
the writes on the run branch (rows in `linkedin_connections`,
`linkedin_campaigns.processed_profiles`, activity records) touches the
`daily_usage` table or `pending_jobs`: no code in this repository increments
daily usage.
-/

structure ActivityRecord where
  user_id : String
  campaign_id : String
  job_type : String
  log_level : String
  message : String
deriving DecidableEq, Repr

structure ProcessorState where
  settings : LinkedInSettings
  usage : DailyUsage
  pendingJobs : List PendingJob
  activityLog : List ActivityRecord
deriving DecidableEq, Repr

inductive ProcessOutcome
  | earlyExitTrial
  | earlyExitInactiveCampaign
  | earlyExitQuotaExhausted
  | ranAutomation (cap : Int)
deriving DecidableEq, Repr

/-- The `logActivity` info record written on the quota-exhausted branch. -/
def limitReachedRecord (userId campaignId : String) : ActivityRecord :=
  { user_id := userId, campaign_id := campaignId, job_type := "followRequest",
    log_level := "info",
    message := "Daily connection limit reached. Job queued for next day." }

/-- Activity records `runWithLogin` writes around a successful automation run. -/
def automationBracket (userId campaignId : String) : List ActivityRecord :=
  [{ user_id := userId, campaign_id := campaignId, job_type := "automation",
     log_level := "info", message := "LinkedIn automation session started" },
   { user_id := userId, campaign_id := campaignId, job_type := "automation",
     log_level := "info", message := "LinkedIn automation completed successfully" }]

namespace FollowRequestProcessor

/-- `FollowRequestProcessor.process`, quota path, on the run where the
automation itself succeeds. `isInTrial` is `checkTrialStatus`,
`campaignActive` is `isCampaignActive`; `importLimit` is
`data?.importLimit || 10`; `freshPendingId`/`now` stand for the database row
id and timestamp. The DOM automation (`sendFollowRequests`) is the excluded
collaborator; its persistence writes never touch `usage` or `pendingJobs`. -/
def process (st : ProcessorState) (userId campaignId : String)
    (isInTrial campaignActive : Bool) (importLimit : Int)
    (freshPendingId now : Nat) : ProcessorState × ProcessOutcome :=
  if !isInTrial then (st, .earlyExitTrial)
  else if !campaignActive then (st, .earlyExitInactiveCampaign)
  else
    let maxConnectionsForRun :=
      getMaxActionsForRun st.settings st.usage .connections importLimit
    if maxConnectionsForRun ≤ 0 then
      ({ st with
          pendingJobs := createPendingJob st.pendingJobs freshPendingId now
            userId campaignId .followRequest .connections importLimit,
          activityLog := st.activityLog ++ [limitReachedRecord userId campaignId] },
       .earlyExitQuotaExhausted)
    else
      ({ st with
          activityLog := st.activityLog ++ automationBracket userId campaignId },
       .ranAutomation maxConnectionsForRun)

end FollowRequestProcessor

/-! ## Session manager (`SessionService`, src/src/browser/session.service.ts)

`private sessions = new Map<string, BrowserSessionInfo>()`, keyed by user id.
The map is embedded as an association list with JS `Map` semantics: `set`
replaces the entry with the same key in place, `delete` removes it. The
browser/page handles are external resources and are not part of the embedded
record; `now : Nat` is the wall clock (`Date.now()` / `new Date()`).
-/

structure BrowserSessionInfo where
  isLoggedIn : Bool
  createdAt : Nat
  lastActivity : Nat
  userId : String
  sessionId : String
deriving DecidableEq, Repr

abbrev SessionMap := List (String × BrowserSessionInfo)

/-- JS `Map.get`. -/
def mapLookup : SessionMap → String → Option BrowserSessionInfo
  | [], _ => none
  | (k, v) :: rest, key => if k = key then some v else mapLookup rest key

/-- JS `Map.set`: replaces the entry with the same key, else appends. -/
def mapSet : SessionMap → String → BrowserSessionInfo → SessionMap
  | [], key, v => [(key, v)]
  | (k, w) :: rest, key, v =>
      if k = key then (k, v) :: rest else (k, w) :: mapSet rest key v

/-- JS `Map.delete`. -/
def mapDelete : SessionMap → String → SessionMap
  | [], _ => []
  | (k, v) :: rest, key => if k = key then rest else (k, v) :: mapDelete rest key

/-- Each user id keys at most one live session: the key list is duplicate-free. -/
def sessionKeysNodup (m : SessionMap) : Prop :=
  (m.map Prod.fst).Nodup

namespace SessionService

/-- `createSession`: builds a fresh record (`isLoggedIn: false`, both
timestamps now, `sessionId` = userId + "_" + Date.now()) and stores it under
the user id, replacing any previous entry. -/
def createSession (m : SessionMap) (userId : String) (now : Nat) :
    SessionMap × BrowserSessionInfo :=
  let info : BrowserSessionInfo :=
    { isLoggedIn := false, createdAt := now, lastActivity := now,
      userId := userId, sessionId := userId ++ "_" ++ toString now }
  (mapSet m userId info, info)

/-- `getSession`: when a session exists its `lastActivity` is set to the
current time (the source mutates the record held by the map) and it is
returned; otherwise the map is untouched and `null` is returned. -/
def getSession (m : SessionMap) (userId : String) (now : Nat) :
    SessionMap × Option BrowserSessionInfo :=
  match mapLookup m userId with
  | some s =>
      let s2 := { s with lastActivity := now }
      (mapSet m userId s2, some s2)
  | none => (m, none)

/-- `getOrCreateSession`: reuse the live session, else create one. -/
def getOrCreateSession (m : SessionMap) (userId : String) (now : Nat) :
    SessionMap × BrowserSessionInfo :=
  match getSession m userId now with
  | (m2, some s) => (m2, s)
  | (m2, none) => createSession m2 userId now

/-- `updateSessionActivity`: reset `lastActivity` when a session exists. -/
def updateSessionActivity (m : SessionMap) (userId : String) (now : Nat) :
    SessionMap :=
  match mapLookup m userId with
  | some s => mapSet m userId { s with lastActivity := now }
  | none => m

/-- `closeSession`: close the browser and delete the map entry. -/
def closeSession (m : SessionMap) (userId : String) : SessionMap :=
  mapDelete m userId

end SessionService

/-- The session-map operations of `SessionService`, for stating that every
reachable map state keeps at most one session per user. -/
inductive SessionOp
  | create (u : String) (now : Nat)
  | get (u : String) (now : Nat)
  | getOrCreate (u : String) (now : Nat)
  | touch (u : String) (now : Nat)
  | close (u : String)

def applySessionOp (m : SessionMap) : SessionOp → SessionMap
  | .create u now => (SessionService.createSession m u now).1
  | .get u now => (SessionService.getSession m u now).1
  | .getOrCreate u now => (SessionService.getOrCreateSession m u now).1
  | .touch u now => SessionService.updateSessionActivity m u now
  | .close u => SessionService.closeSession m u

/-! ## Automation runner read-only queries
(`LinkedInAutomationService`, src/unnamed/part_004) -/

namespace LinkedInAutomationService

/-- `hasActiveSession`: `(await sessionService.getSession(userId)) !== null` —
it goes through `getSession`, so it inherits its `lastActivity` touch. -/
def hasActiveSession (m : SessionMap) (userId : String) (now : Nat) :
    SessionMap × Bool :=
  let r := SessionService.getSession m userId now
  (r.1, r.2.isSome)

/-- `getSessionInfo`: returns `sessionService.getSession(userId)` directly. -/
def getSessionInfo (m : SessionMap) (userId : String) (now : Nat) :
    SessionMap × Option BrowserSessionInfo :=
  SessionService.getSession m userId now

end LinkedInAutomationService

/-! ## `runWithLogin` (`LinkedInAutomationService.runWithLogin`,
src/unnamed/part_004)

Control flow of the method, as a function of the outcomes of its effectful
steps. Everything runs inside one `try`: get the session (reuse + touch, or
`createSession`, which rethrows browser-launch/navigation errors); recreate
when the health check fails; `logActivity` with message "LinkedIn automation
session started" (`SupabaseService.logActivity` catches every error, so the
log steps never throw); run the caller-supplied `runFn`; `logActivity`
"completed successfully" and return the result. The `catch` logs a failure
record and rethrows the caught error unchanged. The emitted records are
abstracted to their bracketing role.
-/

inductive ActivityEvent
  | started
  | completedEv
  | failedEv
deriving DecidableEq, Repr

structure RunCtx where
  hasSession : Bool
  sessionHealthy : Bool
  createSucceeds : Bool
  actionResult : Except String Nat

/-- The part of `runWithLogin` after a session is in hand: emit "started",
run the action, emit "completed" on success; a throw falls to the `catch`,
which emits "failed" and rethrows the error unchanged. -/
def afterSessionAcquired (actionResult : Except String Nat) :
    List ActivityEvent × Except String Nat :=
  match actionResult with
  | .ok v => ([.started, .completedEv], .ok v)
  | .error e => ([.started, .failedEv], .error e)

/-- `runWithLogin` as a trace of activity records plus the value returned or
error rethrown. A session-creation throw (initial creation, or the
recreation after a failed health check) reaches the `catch` before the
"started" record is written. A freshly created session passes the health
check (browser and page set, page open). -/
def runWithLogin (ctx : RunCtx) : List ActivityEvent × Except String Nat :=
  if ctx.hasSession then
    if ctx.sessionHealthy then afterSessionAcquired ctx.actionResult
    else if ctx.createSucceeds then afterSessionAcquired ctx.actionResult
    else ([.failedEv], .error "createSession failed")
  else
    if ctx.createSucceeds then afterSessionAcquired ctx.actionResult
    else ([.failedEv], .error "createSession failed")

/-- The hypothesis under which the session-acquisition steps of
`runWithLogin` do not throw. -/
def sessionAcquired (ctx : RunCtx) : Prop :=
  (ctx.hasSession = true ∧ ctx.sessionHealthy = true) ∨ ctx.createSucceeds = true

/-! ## Concrete scenarios used to evaluate the claims -/

/-- The default caps `loadLinkedInSettings` installs for a new user:
30 connections, 50 messages, 100 visits, 0 inmails. -/
def defaultSettings : LinkedInSettings :=
  { max_connections_per_day := 30, max_message_per_day := 50,
    total_visits_per_day := 100, max_inmails_per_day := 0 }

/-- A user who has consumed the whole connection quota today. -/
def exhaustedUsage : DailyUsage :=
  { connections := 30, messages := 0, visits := 0, inmails := 0 }

/-- Usage of the spec scenario: 28 connections already sent today. -/
def scenarioUsage : DailyUsage :=
  { connections := 28, messages := 0, visits := 0, inmails := 0 }

/-- Processor state of the spec scenario (cap 30, usage 28, nothing pending). -/
def scenarioState : ProcessorState :=
  { settings := defaultSettings, usage := scenarioUsage,
    pendingJobs := [], activityLog := [] }

/-- A pending job whose retry count equals its max retries (3). -/
def retryAtMaxJob : PendingJob :=
  { id := 11, user_id := "u1", campaign_id := "c1", job_type := .followRequest,
    action_type := .connections, requested_count := 5, created_at := 0,
    retry_count := 3, max_retries := 3 }

/-- A pending job with retries to spare. -/
def retryFreshJob : PendingJob :=
  { id := 12, user_id := "u2", campaign_id := "c2", job_type := .followRequest,
    action_type := .connections, requested_count := 7, created_at := 1,
    retry_count := 1, max_retries := 3 }

/-- The single deferred job of the reconciliation scenario. -/
def reconPending : PendingJob :=
  { id := 7, user_id := "u1", campaign_id := "c1", job_type := .followRequest,
    action_type := .connections, requested_count := 10, created_at := 0,
    retry_count := 0, max_retries := 3 }

/-- Scheduler state holding exactly that deferred job and an empty queue. -/
def reconState : SchedulerState :=
  { pendingJobs := [reconPending], queue := [] }

/-- A waiting follow-request job sitting in the shared queue. -/
def waitingFollowRequestJob : QueuedJob :=
  { jobType := .followRequest, userId := "u1", campaignId := "c1", payload := {} }

/-- A reconciliation job as the scheduler enqueues it; neither registered
worker's guard matches its kind. -/
def waitingReconcileJob : QueuedJob :=
  { jobType := .processPendingJobs, userId := "u1", campaignId := "system",
    payload := {} }

/-- A live session used to evaluate the session claims. -/
def liveSession : BrowserSessionInfo :=
  { isLoggedIn := true, createdAt := 1, lastActivity := 2,
    userId := "u1", sessionId := "u1_1" }

/-! ## Helper lemmas about the session map -/

theorem mapLookup_mapSet_self (m : SessionMap) (k : String) (v : BrowserSessionInfo) :
    mapLookup (mapSet m k v) k = some v := by
  induction m with
  | nil => simp [mapSet, mapLookup]
  | cons a rest ih =>
    obtain ⟨ak, aw⟩ := a
    by_cases h : ak = k
    · simp [mapSet, mapLookup, h]
    · simp [mapSet, mapLookup, h, ih]

theorem mapLookup_mapSet_ne (m : SessionMap) (k k2 : String) (v : BrowserSessionInfo)
    (h : k2 ≠ k) : mapLookup (mapSet m k v) k2 = mapLookup m k2 := by
  induction m with
  | nil => simp [mapSet, mapLookup, Ne.symm h]
  | cons a rest ih =>
    obtain ⟨ak, aw⟩ := a
    by_cases hk : ak = k
    · subst hk
      simp [mapSet, mapLookup, Ne.symm h]
    · simp only [mapSet, if_neg hk, mapLookup]
      by_cases hk2 : ak = k2
      · simp [hk2]
      · simp [hk2, ih]

theorem mapSet_length_of_none (m : SessionMap) (k : String) (v : BrowserSessionInfo)
    (h : mapLookup m k = none) : (mapSet m k v).length = m.length + 1 := by
  induction m with
  | nil => simp [mapSet]
  | cons a rest ih =>
    obtain ⟨ak, aw⟩ := a
    by_cases hk : ak = k
    · simp [mapLookup, hk] at h
    · simp only [mapLookup, if_neg hk] at h
      simp [mapSet, hk, ih h]

theorem mapSet_length_of_some (m : SessionMap) (k : String) (v s : BrowserSessionInfo)
    (h : mapLookup m k = some s) : (mapSet m k v).length = m.length := by
  induction m with
  | nil => simp [mapLookup] at h
  | cons a rest ih =>
    obtain ⟨ak, aw⟩ := a
    by_cases hk : ak = k
    · simp [mapSet, hk]
    · simp only [mapLookup, if_neg hk] at h
      simp [mapSet, hk, ih h]

theorem mapSet_fst_mem (m : SessionMap) (k : String) (v : BrowserSessionInfo)
    (x : String) (hx : x ∈ (mapSet m k v).map Prod.fst) :
    x ∈ m.map Prod.fst ∨ x = k := by
  induction m with
  | nil =>
    simp only [mapSet, List.map_cons, List.map_nil, List.mem_singleton] at hx
    exact Or.inr hx
  | cons a rest ih =>
    obtain ⟨ak, aw⟩ := a
    by_cases hk : ak = k
    · simp only [mapSet, if_pos hk, List.map_cons, List.mem_cons] at hx ⊢
      rcases hx with h1 | h1
      · exact Or.inl (Or.inl h1)
      · exact Or.inl (Or.inr h1)
    · simp only [mapSet, if_neg hk, List.map_cons, List.mem_cons] at hx ⊢
      rcases hx with h1 | h1
      · exact Or.inl (Or.inl h1)
      · rcases ih h1 with h2 | h2
        · exact Or.inl (Or.inr h2)
        · exact Or.inr h2

theorem mapSet_nodup (m : SessionMap) (k : String) (v : BrowserSessionInfo)
    (h : sessionKeysNodup m) : sessionKeysNodup (mapSet m k v) := by
  induction m with
  | nil => simp [mapSet, sessionKeysNodup]
  | cons a rest ih =>
    obtain ⟨ak, aw⟩ := a
    simp only [sessionKeysNodup, List.map_cons, List.nodup_cons] at h
    obtain ⟨hnot, hrest⟩ := h
    by_cases hk : ak = k
    · simp only [mapSet, if_pos hk, sessionKeysNodup, List.map_cons, List.nodup_cons]
      exact ⟨hnot, hrest⟩
    · simp only [mapSet, if_neg hk, sessionKeysNodup, List.map_cons, List.nodup_cons]
      refine ⟨?_, ih hrest⟩
      intro hmem
      rcases mapSet_fst_mem rest k v ak hmem with h1 | h1
      · exact hnot h1
      · exact hk h1

theorem mapDelete_fst_sublist (m : SessionMap) (k : String) :
    ((mapDelete m k).map Prod.fst).Sublist (m.map Prod.fst) := by
  induction m with
  | nil => simp [mapDelete]
  | cons a rest ih =>
    obtain ⟨ak, aw⟩ := a
    by_cases hk : ak = k
    · simp only [mapDelete, if_pos hk, List.map_cons]
      exact (List.Sublist.refl (rest.map Prod.fst)).cons ak
    · simp only [mapDelete, if_neg hk, List.map_cons]
      exact ih.cons₂ ak

theorem mapDelete_nodup (m : SessionMap) (k : String)
    (h : sessionKeysNodup m) : sessionKeysNodup (mapDelete m k) := by
  exact (mapDelete_fst_sublist m k).nodup h

theorem applySessionOp_nodup (m : SessionMap) (op : SessionOp)
    (h : sessionKeysNodup m) : sessionKeysNodup (applySessionOp m op) := by
  cases op with
  | create u now => exact mapSet_nodup m u _ h
  | get u now =>
    simp only [applySessionOp, SessionService.getSession]
    cases hl : mapLookup m u with
    | some s => exact mapSet_nodup m u _ h
    | none => exact h
  | getOrCreate u now =>
    simp only [applySessionOp, SessionService.getOrCreateSession,
      SessionService.getSession, SessionService.createSession]
    cases hl : mapLookup m u with
    | some s => exact mapSet_nodup m u _ h
    | none => exact mapSet_nodup m u _ h
  | touch u now =>
    simp only [applySessionOp, SessionService.updateSessionActivity]
    cases hl : mapLookup m u with
    | some s => exact mapSet_nodup m u _ h
    | none => exact h
  | close u => exact mapDelete_nodup m u h

theorem foldl_sessionOps_nodup (ops : List SessionOp) (m : SessionMap)
    (h : sessionKeysNodup m) : sessionKeysNodup (ops.foldl applySessionOp m) := by
  induction ops generalizing m with
  | nil => exact h
  | cons op rest ih => exact ih _ (applySessionOp_nodup m op h)

/-! ## Claim C4 -/

/-- Claim C4: for every user and every usage/limit state, each of the four
remaining-quota values returned by `getRemainingQuotas` equals
`max 0 (limit - usageToday)` for its resource and is never negative, no
matter how far usage has over-run the limit. -/
theorem getRemainingQuotas_never_negative (settings : LinkedInSettings)
    (usage : DailyUsage) :
    ((getRemainingQuotas settings usage).remainingConnections =
        max 0 (settings.max_connections_per_day - usage.connections) ∧
      0 ≤ (getRemainingQuotas settings usage).remainingConnections) ∧
    ((getRemainingQuotas settings usage).remainingMessages =
        max 0 (settings.max_message_per_day - usage.messages) ∧
      0 ≤ (getRemainingQuotas settings usage).remainingMessages) ∧
    ((getRemainingQuotas settings usage).remainingVisits =
        max 0 (settings.total_visits_per_day - usage.visits) ∧
      0 ≤ (getRemainingQuotas settings usage).remainingVisits) ∧
    ((getRemainingQuotas settings usage).remainingInmails =
        max 0 (settings.max_inmails_per_day - usage.inmails) ∧
      0 ≤ (getRemainingQuotas settings usage).remainingInmails) := by
  refine ⟨⟨rfl, ?_⟩, ⟨rfl, ?_⟩, ⟨rfl, ?_⟩, ⟨rfl, ?_⟩⟩ <;> exact le_max_left 0 _

/-! ## Claim C10 -/

/-- Claim C10: for every user state, resource kind and requested count `n`,
`hasRemainingQuota` returns `true` exactly when `getMaxActionsForRun` returns
`n` unclamped. -/
theorem hasRemainingQuota_iff_unclamped (settings : LinkedInSettings)
    (usage : DailyUsage) (t : ActionType) (n : Int) :
    hasRemainingQuota settings usage t n = true ↔
      getMaxActionsForRun settings usage t n = n := by
  cases t <;>
    simp only [hasRemainingQuota, getMaxActionsForRun, quotaField,
      getRemainingQuotas, decide_eq_true_eq] <;>
    omega

/-! ## Claim C2 -/

/-- Claim C2: when the requested amount exceeds the remaining quota,
`getMaxActionsForRun` returns exactly the remaining quota — that is,
`min(requested, remaining)` — and `0` when the quota is exhausted, as a
value rather than a thrown error; and whenever the connection allowance is
`0`, `FollowRequestProcessor.process` records a pending job carrying the
original requested amount (not the clamped one) plus an info activity record
and returns normally (a benign early-exit, not an error). -/
theorem getMaxActionsForRun_clamps (s : LinkedInSettings) (u : DailyUsage)
    (t : ActionType) (n : Int) (hex : remainingFor s u t < n) :
    getMaxActionsForRun s u t n = remainingFor s u t ∧
    getMaxActionsForRun s u t n = min n (remainingFor s u t) ∧
    getMaxActionsForRun s u t n ≤ remainingFor s u t ∧
    (remainingFor s u t = 0 → getMaxActionsForRun s u t n = 0) ∧
    (∀ (pend : List PendingJob) (log : List ActivityRecord)
       (uid cid : String) (fid now2 : Nat),
       remainingFor s u ActionType.connections = 0 →
       FollowRequestProcessor.process
           { settings := s, usage := u, pendingJobs := pend, activityLog := log }
           uid cid true true n fid now2 =
         ({ settings := s, usage := u,
            pendingJobs := pend ++
              [{ id := fid, user_id := uid, campaign_id := cid,
                 job_type := .followRequest, action_type := .connections,
                 requested_count := n, created_at := now2,
                 retry_count := 0, max_retries := 3 }],
            activityLog := log ++ [limitReachedRecord uid cid] },
          ProcessOutcome.earlyExitQuotaExhausted)) := by
  have hmin : getMaxActionsForRun s u t n = min n (remainingFor s u t) := rfl
  refine ⟨?_, hmin, ?_, ?_, ?_⟩
  · rw [hmin]
    exact min_eq_right hex.le
  · rw [hmin]
    exact min_le_right n _
  · intro h0
    rw [hmin, h0]
    omega
  · intro pend log uid cid fid now2 h0
    have hcond : getMaxActionsForRun s u ActionType.connections n ≤ 0 := by
      have : getMaxActionsForRun s u ActionType.connections n =
          min n (remainingFor s u ActionType.connections) := rfl
      rw [this, h0]
      exact min_le_right n 0
    simp [FollowRequestProcessor.process, hcond, createPendingJob]

/-- Witness for C2: the default caps with the connection quota fully used
(usage 30 of 30) and a request of 10. -/
theorem getMaxActionsForRun_clamps_witness :
    remainingFor defaultSettings exhaustedUsage ActionType.connections < 10 ∧
    getMaxActionsForRun defaultSettings exhaustedUsage ActionType.connections 10 = 0 ∧
    (FollowRequestProcessor.process
        { settings := defaultSettings, usage := exhaustedUsage,
          pendingJobs := [], activityLog := [] }
        "u1" "c1" true true 10 0 0).2 = ProcessOutcome.earlyExitQuotaExhausted :=
  ⟨by decide,
   (getMaxActionsForRun_clamps defaultSettings exhaustedUsage ActionType.connections 10
      (by decide)).2.2.2.1 (by decide),
   congrArg Prod.snd
     ((getMaxActionsForRun_clamps defaultSettings exhaustedUsage ActionType.connections 10
        (by decide)).2.2.2.2 [] [] "u1" "c1" 0 0 (by decide))⟩

/-! ## Claim C3 -/

/-- Counterexample to claim C3: with `max_connections_per_day = 30`, usage 28
and a request of 10, `getMaxActionsForRun` does return 2, but after the
processor runs no Pending Job exists at all (none for the 8 remaining
connections) and the usage counter still reads 28, not 30: the processor
creates a pending job only when the allowance is zero and nothing in the
repository increments `daily_usage`. -/
theorem followRequest_no_partial_deferral :
    getMaxActionsForRun defaultSettings scenarioUsage ActionType.connections 10 = 2 ∧
    (FollowRequestProcessor.process scenarioState "u1" "c1" true true 10 0 0).1.pendingJobs
      = [] ∧
    (FollowRequestProcessor.process scenarioState "u1" "c1" true true 10 0 0).1.usage.connections
      = 28 := by
  decide

/-- Claim C3 as amended: in the 30-cap/28-used scenario a request of 10 gets
`getMaxActionsForRun = 2`; the processor, seeing a positive allowance, runs
the automation capped at 2 and leaves both the pending-job store and the
daily-usage counters exactly as they were (no Pending Job for the remaining
8, and the usage counter is not incremented by the processor). -/
theorem followRequest_partial_run :
    getMaxActionsForRun defaultSettings scenarioUsage ActionType.connections 10 = 2 ∧
    (FollowRequestProcessor.process scenarioState "u1" "c1" true true 10 0 0).2
      = ProcessOutcome.ranAutomation 2 ∧
    (FollowRequestProcessor.process scenarioState "u1" "c1" true true 10 0 0).1.usage
      = scenarioUsage ∧
    (FollowRequestProcessor.process scenarioState "u1" "c1" true true 10 0 0).1.pendingJobs
      = scenarioState.pendingJobs := by
  decide

/-! ## Claim C5 -/

/-- The loop of the hourly pass, written as an append of the mapped entries. -/
theorem foldl_addJob_eq (jobs : List PendingJob) (q : List QueuedJob) :
    jobs.foldl
      (fun q pj => QueueService.addJob q .processPendingJobs pj.user_id "system"
        { pendingJobId := some pj.id, actionType := some pj.action_type,
          requestedCount := some pj.requested_count })
      q = q ++ jobs.map pendingJobQueueEntry := by
  induction jobs generalizing q with
  | nil => simp
  | cons a rest ih =>
    rw [List.foldl_cons, ih]
    simp [QueueService.addJob, pendingJobQueueEntry]

/-- Claim C5 is false of the code and the repository's own plan marks the
missing piece: the hourly pass enqueues a queue job for each processable
pending job but deletes none of them (`completePendingJob` — which does
delete, as the last conjunct shows — has no caller), so running the pass
twice with no new Pending Jobs enqueues the same deferred work twice. -/
theorem processPendingJobs_double_enqueue :
    (SchedulerService.processPendingJobs
        (SchedulerService.processPendingJobs reconState)).pendingJobs
      = [reconPending] ∧
    (SchedulerService.processPendingJobs
        (SchedulerService.processPendingJobs reconState)).queue
      = [pendingJobQueueEntry reconPending, pendingJobQueueEntry reconPending] ∧
    completePendingJob [reconPending] reconPending.id = [] := by
  decide

/-! ## Claim C6 -/

/-- Counterexample to claim C6: a pending job whose retry count equals its
max retries (3 = 3) is not strictly under the max, yet
`getProcessablePendingJobs` — which filters with `retry_count <= 3` — still
selects it for re-enqueueing. -/
theorem getProcessablePendingJobs_takes_retry_at_max :
    retryAtMaxJob.retry_count = retryAtMaxJob.max_retries ∧
    ¬ retryAtMaxJob.retry_count < retryAtMaxJob.max_retries ∧
    getProcessablePendingJobs [retryAtMaxJob] = [retryAtMaxJob] := by
  decide

/-- Claim C6 as amended: the hourly reconciliation selects exactly the
Pending Jobs whose retry count is at most 3 (the max retries), i.e. also
those equal to it; a job whose retry count has exceeded 3 is never
re-enqueued; and each selected job is re-enqueued as a `processPendingJobs`
queue job carrying its resource kind and requested amount. -/
theorem getProcessablePendingJobs_spec (store : List PendingJob) (p : PendingJob) :
    (p ∈ getProcessablePendingJobs store ↔ p ∈ store ∧ p.retry_count ≤ 3) ∧
    (3 < p.retry_count → p ∉ getProcessablePendingJobs store) ∧
    (∀ st : SchedulerState, st.pendingJobs = store →
       (SchedulerService.processPendingJobs st).queue =
         st.queue ++ (getProcessablePendingJobs store).map pendingJobQueueEntry) ∧
    (pendingJobQueueEntry p).jobType = JobType.processPendingJobs ∧
    (pendingJobQueueEntry p).payload.actionType = some p.action_type ∧
    (pendingJobQueueEntry p).payload.requestedCount = some p.requested_count := by
  refine ⟨?_, ?_, ?_, rfl, rfl, rfl⟩
  · simp [getProcessablePendingJobs, List.mem_filter]
  · intro hgt hmem
    have := (List.mem_filter.mp hmem).2
    simp only [decide_eq_true_eq] at this
    omega
  · intro st hst
    simp only [SchedulerService.processPendingJobs, hst, foldl_addJob_eq]

/-- Witness for C6: one job with retries to spare is selected and re-enqueued
with its kind and amount. -/
theorem getProcessablePendingJobs_spec_witness :
    retryFreshJob ∈ getProcessablePendingJobs [retryFreshJob] ∧
    (SchedulerService.processPendingJobs { pendingJobs := [retryFreshJob], queue := [] }).queue
      = [pendingJobQueueEntry retryFreshJob] := by
  constructor
  · exact (getProcessablePendingJobs_spec [retryFreshJob] retryFreshJob).1.mpr
      ⟨by decide, by decide⟩
  · rw [(getProcessablePendingJobs_spec [retryFreshJob] retryFreshJob).2.2.1
      { pendingJobs := [retryFreshJob], queue := [] } rfl]
    decide

/-! ## Claim C1 -/

/-- Claim C1 is false of the code: both registered workers listen on the one
shared queue `linkedin-automation`, so a puller is not restricted to its own
kind; when the follow-response worker dequeues a waiting `followRequest` job
its guard does not match, no processor is invoked, and the job is still
marked completed — whatever the follow-request processor would have done.
The same happens to every `processPendingJobs` job the scheduler enqueues,
since no registered worker's guard matches that kind. -/
theorem workerPool_completes_mismatched_kinds :
    waitingFollowRequestJob.jobType = JobType.followRequest ∧
    (∀ b : Bool,
       runJobOnWorker .followResponseWorker waitingFollowRequestJob b =
         { finalState := .completed, processorInvoked := none }) ∧
    (∀ (w : WorkerKind) (b : Bool),
       runJobOnWorker w waitingReconcileJob b =
         { finalState := .completed, processorInvoked := none }) := by
  refine ⟨rfl, fun b => ?_, fun w b => ?_⟩
  · cases b <;> rfl
  · cases w <;> cases b <;> rfl

/-! ## Claim C7 -/

/-- Claim C7: a session request for a user with no session creates exactly one
new session (the map gains exactly one entry, under that user's id); a second
request before expiry returns the same session id instead of creating
another; and the session map keeps at most one live session per user id —
both from any duplicate-free state through `getOrCreateSession`, and at every
state reachable from the empty map by the service's operations. -/
theorem getOrCreateSession_one_per_user (m : SessionMap) (userId : String) (now : Nat) :
    (mapLookup m userId = none →
       SessionService.getOrCreateSession m userId now =
         (mapSet m userId
            { isLoggedIn := false, createdAt := now, lastActivity := now,
              userId := userId, sessionId := userId ++ "_" ++ toString now },
          { isLoggedIn := false, createdAt := now, lastActivity := now,
            userId := userId, sessionId := userId ++ "_" ++ toString now }) ∧
       (SessionService.getOrCreateSession m userId now).1.length = m.length + 1) ∧
    (∀ s, mapLookup m userId = some s →
       (SessionService.getOrCreateSession m userId now).2.sessionId = s.sessionId ∧
       (SessionService.getOrCreateSession m userId now).1.length = m.length) ∧
    (sessionKeysNodup m →
       sessionKeysNodup (SessionService.getOrCreateSession m userId now).1) ∧
    (∀ ops : List SessionOp, sessionKeysNodup (ops.foldl applySessionOp [])) := by
  refine ⟨?_, ?_, ?_, ?_⟩
  · intro h
    have heq : SessionService.getOrCreateSession m userId now =
        (mapSet m userId
           { isLoggedIn := false, createdAt := now, lastActivity := now,
             userId := userId, sessionId := userId ++ "_" ++ toString now },
         { isLoggedIn := false, createdAt := now, lastActivity := now,
           userId := userId, sessionId := userId ++ "_" ++ toString now }) := by
      simp [SessionService.getOrCreateSession, SessionService.getSession, h,
        SessionService.createSession]
    refine ⟨heq, ?_⟩
    rw [heq]
    exact mapSet_length_of_none m userId _ h
  · intro s hs
    have heq : SessionService.getOrCreateSession m userId now =
        (mapSet m userId { s with lastActivity := now },
         { s with lastActivity := now }) := by
      simp [SessionService.getOrCreateSession, SessionService.getSession, hs]
    refine ⟨?_, ?_⟩
    · rw [heq]
    · rw [heq]
      exact mapSet_length_of_some m userId _ s hs
  · intro h
    cases hl : mapLookup m userId with
    | some s =>
      have heq : SessionService.getOrCreateSession m userId now =
          (mapSet m userId { s with lastActivity := now },
           { s with lastActivity := now }) := by
        simp [SessionService.getOrCreateSession, SessionService.getSession, hl]
      rw [heq]
      exact mapSet_nodup m userId _ h
    | none =>
      have heq : SessionService.getOrCreateSession m userId now =
          (mapSet m userId
             { isLoggedIn := false, createdAt := now, lastActivity := now,
               userId := userId, sessionId := userId ++ "_" ++ toString now },
           { isLoggedIn := false, createdAt := now, lastActivity := now,
             userId := userId, sessionId := userId ++ "_" ++ toString now }) := by
        simp [SessionService.getOrCreateSession, SessionService.getSession, hl,
          SessionService.createSession]
      rw [heq]
      exact mapSet_nodup m userId _ h
  · exact fun ops => foldl_sessionOps_nodup ops [] (by simp [sessionKeysNodup])

/-- Witness for C7: creating against an empty map mints the fresh session id;
re-requesting against a map holding a live session returns the same id. -/
theorem getOrCreateSession_one_per_user_witness :
    (SessionService.getOrCreateSession [] "u1" 5).2.sessionId =
      "u1" ++ "_" ++ toString 5 ∧
    (SessionService.getOrCreateSession [("u1", liveSession)] "u1" 9).2.sessionId =
      liveSession.sessionId := by
  constructor
  · have h := ((getOrCreateSession_one_per_user [] "u1" 5).1 rfl).1
    rw [h]
  · exact ((getOrCreateSession_one_per_user [("u1", liveSession)] "u1" 9).2.1
      liveSession (by decide)).1

/-! ## Claim C9 -/

/-- Claim C9: reading a session is not effect-free — `getSession` on a user
with a live session writes `lastActivity := now` back into the map (the very
state change `updateSessionActivity`, the explicit touch, performs), leaves
every other field and every other user's entry unchanged, and both read-only
queries of the automation service (`hasActiveSession`, `getSessionInfo`) go
through it and so reset the inactivity-expiry clock the same way. -/
theorem getSession_touches_lastActivity (m : SessionMap) (u : String) (now : Nat)
    (s : BrowserSessionInfo) (hs : mapLookup m u = some s) :
    SessionService.getSession m u now =
      (mapSet m u { s with lastActivity := now },
       some { s with lastActivity := now }) ∧
    mapLookup (SessionService.getSession m u now).1 u =
      some { s with lastActivity := now } ∧
    (∀ v, v ≠ u →
       mapLookup (SessionService.getSession m u now).1 v = mapLookup m v) ∧
    (SessionService.getSession m u now).1 =
      SessionService.updateSessionActivity m u now ∧
    LinkedInAutomationService.hasActiveSession m u now =
      ((SessionService.getSession m u now).1, true) ∧
    LinkedInAutomationService.getSessionInfo m u now =
      SessionService.getSession m u now ∧
    ({ s with lastActivity := now } : BrowserSessionInfo).isLoggedIn = s.isLoggedIn ∧
    ({ s with lastActivity := now } : BrowserSessionInfo).createdAt = s.createdAt ∧
    ({ s with lastActivity := now } : BrowserSessionInfo).userId = s.userId ∧
    ({ s with lastActivity := now } : BrowserSessionInfo).sessionId = s.sessionId := by
  have heq : SessionService.getSession m u now =
      (mapSet m u { s with lastActivity := now },
       some { s with lastActivity := now }) := by
    simp [SessionService.getSession, hs]
  refine ⟨heq, ?_, ?_, ?_, ?_, rfl, rfl, rfl, rfl, rfl⟩
  · rw [heq]
    exact mapLookup_mapSet_self m u _
  · intro v hv
    rw [heq]
    exact mapLookup_mapSet_ne m u v _ hv
  · rw [heq]
    simp [SessionService.updateSessionActivity, hs]
  · simp [LinkedInAutomationService.hasActiveSession, heq]

/-- Witness for C9: a read through `getSession` rewrites the stored record's
`lastActivity` to the current clock. -/
theorem getSession_touches_lastActivity_witness :
    (SessionService.getSession [("u1", liveSession)] "u1" 9).2 =
      some { liveSession with lastActivity := 9 } := by
  have h := (getSession_touches_lastActivity [("u1", liveSession)] "u1" 9
    liveSession (by decide)).1
  rw [h]

/-! ## Claim C8 -/

/-- Counterexample to claim C8: on the invocation where no session exists and
`createSession` throws, `runWithLogin` emits only a "failed" activity record
— no "started" record is ever written, although the spec says one is always
emitted. -/
theorem runWithLogin_failed_without_started :
    (runWithLogin
        { hasSession := false, sessionHealthy := true,
          createSucceeds := false, actionResult := Except.ok 0 }).1
      = [ActivityEvent.failedEv] ∧
    ActivityEvent.started ∉
      (runWithLogin
          { hasSession := false, sessionHealthy := true,
            createSucceeds := false, actionResult := Except.ok 0 }).1 := by
  refine ⟨rfl, ?_⟩
  simp [runWithLogin]

/-- Claim C8 as amended: on every invocation whose session acquisition does
not throw, a "started" record is emitted before the action and exactly one of
"completed" or "failed" after it — "completed" with the action's result
returned as-is, "failed" with the thrown error rethrown unchanged; and on
every invocation whatsoever an error outcome is accompanied by a "failed"
record (never swallowed) and a success outcome carries exactly the value the
action returned. -/
theorem runWithLogin_brackets_action (ctx : RunCtx) :
    (sessionAcquired ctx →
       (∀ v, ctx.actionResult = Except.ok v →
          runWithLogin ctx =
            ([ActivityEvent.started, ActivityEvent.completedEv], Except.ok v)) ∧
       (∀ e, ctx.actionResult = Except.error e →
          runWithLogin ctx =
            ([ActivityEvent.started, ActivityEvent.failedEv], Except.error e))) ∧
    (∀ e, (runWithLogin ctx).2 = Except.error e →
       ActivityEvent.failedEv ∈ (runWithLogin ctx).1) ∧
    (∀ v, (runWithLogin ctx).2 = Except.ok v → ctx.actionResult = Except.ok v) := by
  obtain ⟨hs, hh, hc, ar⟩ := ctx
  cases hs <;> cases hh <;> cases hc <;> cases ar <;>
    simp [runWithLogin, afterSessionAcquired, sessionAcquired]

/-- Witness for C8: an invocation with a healthy live session and an action
returning 42 is bracketed by started/completed and yields 42. -/
theorem runWithLogin_brackets_action_witness :
    runWithLogin
        { hasSession := true, sessionHealthy := true,
          createSucceeds := true, actionResult := Except.ok 42 } =
      ([ActivityEvent.started, ActivityEvent.completedEv], Except.ok 42) :=
  ((runWithLogin_brackets_action _).1 (Or.inl ⟨rfl, rfl⟩)).1 42 rfl
